import Mathlib

/-!
Shallow embedding of the Adjuface bot's entitlement ledger, quota
reconciler, scheduler log and image-request pipeline, translated from
`src/bot/database/db_users.py`, `src/bot/database/db_updates.py`,
`src/bot/database/db_logging.py` and `src/bot/message_handler.py`.

Modelling conventions:
- SQLAlchemy rows become structures; the `users` and `premium_purchases`
  tables become lists of rows inside a `Db` structure.
- `select(User).filter_by(user_id=...)` + mutation of the returned row is
  embedded as a map over the rows whose `user_id` matches (the column has a
  unique constraint, so at most one row matches in a well-formed store).
- Dates (`purchase_date`, `expiration_date`, `premium_expiration`) and
  timestamps (`last_photo_sent_timestamp`, `run_datetime`) are integers;
  `timedelta(hours=h)` is `h * 3600` on the timestamp scale and
  `timedelta(seconds=s)` is `s`.
- Configuration constants read from `config.yaml` (absent from the
  repository) are the fields of `Config`.
- Python functions annotated `-> None` that a claim talks about returning a
  value are embedded with an explicit `Option Int` result that is always
  `none`, mirroring the implicit `None` return.
- Messages sent to the chat user are accumulated in a `List Msg`; a message
  whose text is a fixed localization string becomes a constructor without a
  payload, and a message built with `.format(...)` carries the formatted
  value as a payload.
- A Python exception escaping a pipeline function is an `Option` result of
  `none` (it only arises when a row is missing mid-pipeline).
-/

namespace Adjuface

/-- Configuration constants loaded from `config.yaml` via
`bot/handlers/constants.py`: `PREMIUM_DAYS`, `FREE_REQUESTS`,
`PREMIUM_REQUESTS`, `PREMIUM_TARGETS`, `HOUR_INTERVAL`. -/
structure Config where
  premium_days : Int
  free_requests : Int
  premium_requests : Int
  premium_targets : Int
  hour_interval : Int
deriving Repr, DecidableEq

/-- A row of the `users` table (`db_models.User`), restricted to the columns
the ledger and pipeline read or write. -/
structure User where
  user_id : Nat
  mode : String
  receive_target_flag : Int
  status : String
  requests_left : Int
  targets_left : Int
  last_photo_sent_timestamp : Int
  premium_expiration : Option Int
deriving Repr, DecidableEq

/-- A row of the `premium_purchases` table (`db_models.PremiumPurchase`). -/
structure PremiumPurchase where
  user_id : Nat
  purchase_date : Int
  expiration_date : Int
  targets_increment : Int
  request_increment : Int
deriving Repr, DecidableEq

/-- A row of the `scheduler_logs` table (`db_models.SchedulerLog`). -/
structure SchedulerLog where
  job_name : String
  run_datetime : Int
  run_status : String
deriving Repr, DecidableEq

/-- The persistent store: the tables the verified operations touch. -/
structure Db where
  users : List User
  purchases : List PremiumPurchase
  scheduler_logs : List SchedulerLog
deriving Repr, DecidableEq

/-- Embeds `select(User).filter_by(user_id=user_id)` with
`scalar_one_or_none()`. -/
def fetchUser (db : Db) (uid : Nat) : Option User :=
  db.users.find? fun u => u.user_id == uid

/-- Mutating the row returned by `filter_by(user_id=uid)`: apply `f` to the
rows whose `user_id` matches (at most one in a well-formed store); if no row
matches, the store is unchanged, as in the Python `if user:` guard. -/
def mapUser (db : Db) (uid : Nat) (f : User → User) : Db :=
  { db with users := db.users.map fun u => if u.user_id == uid then f u else u }

/-- Embeds `db_users.decrement_requests_left(user_id, n=1)`.  The second component
is the Python return value: the function is annotated `-> None` and has no
return statement, so it is always `none`. -/
def decrement_requests_left (db : Db) (user_id : Nat) (n : Int) : Db × Option Int :=
  (mapUser db user_id fun u =>
    if 0 < u.requests_left then
      { u with requests_left := max 0 (u.requests_left - n) }
    else
      { u with requests_left := 0 },
   none)

/-- Embeds `db_users.decrement_targets_left(user_id, n=1)`. -/
def decrement_targets_left (db : Db) (user_id : Nat) (n : Int) : Db :=
  mapUser db user_id fun u =>
    if 0 < u.targets_left then
      { u with targets_left := max 0 (u.targets_left - n) }
    else u

/-- Embeds `db_users.update_user_mode(user_id, mode)`. -/
def update_user_mode (db : Db) (user_id : Nat) (mode : String) : Db :=
  mapUser db user_id fun u => { u with mode := mode }

/-- Embeds `db_users.toggle_receive_target_flag(user_id, flag=0)`. -/
def toggle_receive_target_flag (db : Db) (user_id : Nat) (flag : Int) : Db :=
  mapUser db user_id fun u => { u with receive_target_flag := flag }

/-- Embeds `db_updates.update_photo_timestamp(user_id, timestamp)`. -/
def update_photo_timestamp (db : Db) (user_id : Nat) (timestamp : Int) : Db :=
  mapUser db user_id fun u => { u with last_photo_sent_timestamp := timestamp }

/-- Embeds `db_users.set_requests_left(user_id, number=FREE_REQUESTS)`: revert to
free status, clear the expiration, discard the user's purchase rows
(`delete_premium_purchases_by_user_id`), zero targets, set requests. -/
def set_requests_left (db : Db) (user_id : Nat) (number : Int) : Db :=
  match fetchUser db user_id with
  | none => db
  | some _ =>
    let db1 := mapUser db user_id fun u =>
      { u with status := "free", premium_expiration := none,
               targets_left := 0, requests_left := number }
    { db1 with purchases := db1.purchases.filter fun p => !(p.user_id == user_id) }

/-- Embeds `db_users.buy_premium(user_id)` at date `now`: append a
`PremiumPurchase` row and apply the immediate top-up.  Note the source
assigns `targets_increment=PREMIUM_REQUESTS` and
`request_increment=PREMIUM_TARGETS` on the new row, while the top-up adds
`PREMIUM_REQUESTS` to `requests_left` and `PREMIUM_TARGETS` to
`targets_left`. -/
def buy_premium (c : Config) (db : Db) (user_id : Nat) (now : Int) : Db :=
  match fetchUser db user_id with
  | none => db
  | some _ =>
    let expiration := now + c.premium_days
    let db1 := { db with purchases := db.purchases ++
      [{ user_id := user_id, purchase_date := now, expiration_date := expiration,
         targets_increment := c.premium_requests,
         request_increment := c.premium_targets }] }
    mapUser db1 user_id fun u =>
      { u with requests_left := u.requests_left + c.premium_requests,
               targets_left := u.targets_left + c.premium_targets,
               status := "premium",
               premium_expiration := some expiration }

/-- The deletion predicate of `update_user_quotas`: purchase rows of user
`vid` whose `expiration_date` is strictly before today's date. -/
def removePred (today : Int) (vid : Nat) (p : PremiumPurchase) : Bool :=
  p.user_id == vid && decide (p.expiration_date < today)

/-- The active-purchase predicate of `update_user_quotas`: rows of user
`uid` whose `expiration_date` is today or later. -/
def activePred (today : Int) (uid : Nat) (p : PremiumPurchase) : Bool :=
  p.user_id == uid && decide (today ≤ p.expiration_date)

/-- One iteration of the `for user in users:` loop of
`db_updates.update_user_quotas`: delete the user's expired purchase rows,
fetch the active ones, then either overwrite both balances with the grant
sums or revert the user to free status. -/
def reconcileStep (c : Config) (today : Int)
    (st : List User × List PremiumPurchase) (u : User) :
    List User × List PremiumPurchase :=
  let ps := st.2.filter fun p => !(removePred today u.user_id p)
  let active := ps.filter (activePred today u.user_id)
  let u1 :=
    if active.isEmpty then
      { u with status := "free", requests_left := c.free_requests,
               premium_expiration := none }
    else
      { u with requests_left := (active.map PremiumPurchase.request_increment).sum,
               targets_left := (active.map PremiumPurchase.targets_increment).sum }
  (st.1 ++ [u1], ps)

/-- Embeds `db_updates.update_user_quotas(free_requests, td)` without its final
logging call: iterate the reconcile loop over every fetched user row. -/
def update_user_quotas (c : Config) (db : Db) (today : Int) : Db :=
  let st := db.users.foldl (reconcileStep c today) ([], db.purchases)
  { db with users := st.1, purchases := st.2 }

/-- The `order_by(desc(run_datetime)).limit(1)` query of
`db_logging.log_scheduler_run`: the entry for `job` with the greatest
`run_datetime` (first such entry on ties). -/
def lastLog (logs : List SchedulerLog) (job : String) : Option SchedulerLog :=
  (logs.filter fun e => e.job_name == job).foldl
    (fun acc e =>
      match acc with
      | none => some e
      | some a => if a.run_datetime < e.run_datetime then some e else acc)
    none

/-- Embeds `db_logging.log_scheduler_run(job_name, status, details, hour_delay)` at
time `now`: append a new log entry iff there is no previous entry for the
job or at least `hour_delay` hours have passed since the last one. -/
def log_scheduler_run (db : Db) (job : String) (run_status : String)
    (now : Int) (hour_delay : Int) : Db :=
  match lastLog db.scheduler_logs job with
  | none =>
    { db with scheduler_logs := db.scheduler_logs ++
        [{ job_name := job, run_datetime := now, run_status := run_status }] }
  | some last =>
    if hour_delay * 3600 ≤ now - last.run_datetime then
      { db with scheduler_logs := db.scheduler_logs ++
          [{ job_name := job, run_datetime := now, run_status := run_status }] }
    else db

/-- A full invocation of `db_updates.update_user_quotas`: the reconcile loop
followed by its `log_scheduler_run` call, with the job name the source
passes. -/
def update_user_quotas_run (c : Config) (db : Db) (today now : Int) : Db :=
  log_scheduler_run (update_user_quotas c db today)
    ("update_user_quotas") ("success") now c.hour_interval

/-- A message the pipeline sends to the chat user
(`message.answer` / `message.answer_photo` in `message_handler.py`).
Fixed localization strings are payload-free constructors; messages built
with `.format(...)` carry the formatted value. -/
inductive Msg where
  | noAttempts : Msg
  | tooFast : Msg
  | imgReceived : Msg
  | photo : String → Msg
  | attemptsLeft : Int → Msg
  | targetUploaded : Int → Msg
  | downloadFailed : Msg
  | swapFailed : Msg
deriving Repr, DecidableEq

/-- Embeds `message_handler.check_limit(user, message)`: the entitlement gate on
the snapshot `u`, together with the message it sends on rejection. -/
def check_limit (u : User) : Bool × List Msg :=
  if u.requests_left ≤ 0 then (false, [Msg.noAttempts]) else (true, [])

/-- Embeds `message_handler.check_time_limit(user, message, n_time=20)`: the
cooldown gate.  Premium users always pass; a free user is rejected, with the
fixed `too_fast` localization message, iff fewer than `n_time` seconds have
passed since `last_photo_sent_timestamp`. -/
def check_time_limit (u : User) (now : Int) (n_time : Int) : Bool × List Msg :=
  if u.status == "premium" then (true, [])
  else if now - u.last_photo_sent_timestamp < n_time then (false, [Msg.tooFast])
  else (true, [])

/-- Embeds `message_handler.handler_image_send(message, output_paths)`: deliver the
processed outputs one by one, re-fetching the user row and re-checking
`check_limit` before each delivery; stop with `false` on a failed check.
The result is `none` when a fetched row is missing (the Python code would
raise on `user.requests_left`). -/
def handler_image_send (db : Db) (uid : Nat) : List String → Option (Bool × List Msg)
  | [] => some (true, [])
  | path :: rest =>
    match fetchUser db uid with
    | none => none
    | some u =>
      let gate := check_limit u
      if gate.1 then
        match handler_image_send db uid rest with
        | none => none
        | some r => some (r.1, gate.2 ++ [Msg.photo path] ++ r.2)
      else some (false, gate.2)

/-- Embeds `message_handler.image_handler_received_result(message, user, response,
input_path)` with the decoded response body `image_paths`: send the outputs,
then decrement `requests_left` by their number and report
`max(0, user.requests_left - len(image_paths))` from the stale snapshot
`user`.  Returns the updated store, the boolean the function returns, and
the messages sent. -/
def image_handler_received_result (db : Db) (user : User)
    (image_paths : List String) : Option (Db × Bool × List Msg) :=
  match handler_image_send db user.user_id image_paths with
  | none => none
  | some (false, msgs) => some (db, false, msgs)
  | some (true, msgs) =>
    let db1 := (decrement_requests_left db user.user_id (image_paths.length : Int)).1
    some (db1, true,
      msgs ++ [Msg.attemptsLeft (max 0 (user.requests_left - (image_paths.length : Int)))])

/-- Embeds `message_handler.target_image_check(message, user, input_image)`: when
the snapshot shows a premium user with the receive-target flag set and a
nonzero target balance, store the image as the user's mode, clear the flag,
report the remaining target credits and decrement the target balance;
otherwise do nothing (the Python function falls through returning `None`).
The boolean is the truthiness of the returned value. -/
def target_image_check (db : Db) (u : User) (input_image : String) :
    Db × List Msg × Bool :=
  if u.status == "premium" && !(u.receive_target_flag == 0) && !(u.targets_left == 0) then
    let db1 := update_user_mode db u.user_id input_image
    let db2 := toggle_receive_target_flag db1 u.user_id 0
    let db3 := decrement_targets_left db2 u.user_id 1
    (db3, [Msg.targetUploaded (u.targets_left - 1)], true)
  else (db, [], false)

/-- Embeds `message_handler.image_handler_load(message, user, response,
input_path)`: acknowledge the downloaded image and run the target check. -/
def image_handler_load (db : Db) (u : User) (input_path : String) :
    Db × List Msg × Bool :=
  let r := target_image_check db u input_path
  (r.1, Msg.imgReceived :: r.2.1, r.2.2)

/-- Embeds `message_handler.image_handler_swapper(message, user, session,
input_path)` with the FaceSwap call's outcome made explicit: on HTTP 200 the
decoded output list `outputs` is handled by `image_handler_received_result`
(returning `false` exactly when that handler returns `false`); otherwise the
failure handler sends its error message and the function returns `true`. -/
def image_handler_swapper (db : Db) (u : User) (swap_ok : Bool)
    (outputs : List String) : Option (Db × List Msg × Bool) :=
  if swap_ok then
    match image_handler_received_result db u outputs with
    | none => none
    | some (db1, ok, msgs) => some (db1, msgs, ok)
  else some (db, [Msg.swapFailed], true)

/-- Embeds `message_handler.image_handler_logic(message, user, file_url,
input_path)` with the two external outcomes (download HTTP status, FaceSwap
HTTP status) made explicit: a failed download ends the pipeline with the
failure message; a settled target upload ends it; otherwise the swapper
runs. -/
def image_handler_logic (db : Db) (u : User) (download_ok swap_ok : Bool)
    (outputs : List String) (input_path : String) : Option (Db × List Msg) :=
  if download_ok then
    let r := image_handler_load db u input_path
    if r.2.2 then some (r.1, r.2.1)
    else
      match image_handler_swapper r.1 u swap_ok outputs with
      | none => none
      | some (db2, msgs2, _) => some (db2, r.2.1 ++ msgs2)
  else some (db, [Msg.downloadFailed])

/-- A ledger operation of the kinds quantified over by the balance
invariant: clamped decrements of either resource, a premium purchase, a
reset (`set_requests_left`), or a reconciliation run. -/
inductive LedgerOp where
  | decReq : Nat → Int → LedgerOp
  | decTgt : Nat → Int → LedgerOp
  | buy : Nat → Int → LedgerOp
  | reset : Nat → Int → LedgerOp
  | reconcile : Int → LedgerOp
deriving Repr, DecidableEq

/-- Interpret one ledger operation on the store. -/
def applyOp (c : Config) (db : Db) : LedgerOp → Db
  | .decReq uid n => (decrement_requests_left db uid n).1
  | .decTgt uid n => decrement_targets_left db uid n
  | .buy uid now => buy_premium c db uid now
  | .reset uid k => set_requests_left db uid k
  | .reconcile today => update_user_quotas c db today

/-- Interpret a sequence of ledger operations, left to right. -/
def applyOps (c : Config) (db : Db) (ops : List LedgerOp) : Db :=
  ops.foldl (applyOp c) db

/-- Both balances of every user row are nonnegative. -/
def BalancesNonneg (db : Db) : Prop :=
  ∀ u ∈ db.users, 0 ≤ u.requests_left ∧ 0 ≤ u.targets_left

/-- Both grant columns of every purchase row are nonnegative. -/
def GrantsNonneg (db : Db) : Prop :=
  ∀ p ∈ db.purchases, 0 ≤ p.request_increment ∧ 0 ≤ p.targets_increment

/-- The only operation argument that is written into a balance unclamped is
the `number` of a reset; the repository's call sites pass `10` or
`FREE_REQUESTS`. -/
def OpNonneg : LedgerOp → Prop
  | .reset _ k => 0 ≤ k
  | _ => True

/-- The per-user closed form of one reconciliation: what
`update_user_quotas` does to a user row, expressed against the purchase
table as it stood when the run started. -/
def reconOne (c : Config) (today : Int) (ps : List PremiumPurchase) (u : User) : User :=
  let active := ps.filter (activePred today u.user_id)
  if active.isEmpty then
    { u with status := "free", requests_left := c.free_requests,
             premium_expiration := none }
  else
    { u with requests_left := (active.map PremiumPurchase.request_increment).sum,
             targets_left := (active.map PremiumPurchase.targets_increment).sum }

/-- Delete, for each user id in `ids` in turn, that user's expired purchase
rows. -/
def removeAll (today : Int) (ids : List Nat) (ps : List PremiumPurchase) :
    List PremiumPurchase :=
  ids.foldl (fun acc vid => acc.filter fun p => !(removePred today vid p)) ps

/-- A sample configuration with the grant sizes of the model defaults in
`db_models.py` (`request_increment` defaults to 100, `targets_increment` to
10) and a daily interval. -/
def cfgA : Config :=
  { premium_days := 30, free_requests := 10, premium_requests := 100,
    premium_targets := 10, hour_interval := 24 }

/-- A free user with one processing credit and an old last-photo
timestamp. -/
def userFree1 : User :=
  { user_id := 1, mode := "1", receive_target_flag := 0, status := "free",
    requests_left := 1, targets_left := 0, last_photo_sent_timestamp := -100,
    premium_expiration := none }

/-- A one-user store holding only `userFree1`. -/
def dbFree1 : Db := { users := [userFree1], purchases := [], scheduler_logs := [] }

/-- The number of processed images delivered in a message transcript: the
count of `answer_photo` calls. -/
def deliveredCount (msgs : List Msg) : Nat :=
  msgs.countP fun m => match m with | Msg.photo _ => true | _ => false

/-- A premium user with the receive-target flag set and one target credit. -/
def userPrem1 : User :=
  { userFree1 with status := "premium", receive_target_flag := 1,
                   targets_left := 1, requests_left := 5 }

/-- A one-user store holding only `userPrem1`. -/
def dbPrem1 : Db := { users := [userPrem1], purchases := [], scheduler_logs := [] }

/-- The store after `userPrem1` settles a custom target image named "in":
mode stores the image, the flag is cleared, one target credit consumed. -/
def dbPrem1After : Db :=
  { users := [({ userPrem1 with
                 mode := "in", receive_target_flag := 0, targets_left := 0 })],
    purchases := [], scheduler_logs := [] }

end Adjuface

namespace Adjuface

/-- Rows kept by a filter are rows of the original table. -/
theorem mem_of_mem_filter_purchases {p : PremiumPurchase} {f : PremiumPurchase → Bool}
    {ps : List PremiumPurchase} (h : p ∈ ps.filter f) : p ∈ ps :=
  List.mem_of_mem_filter h

/-- C3 (code_bug evidence): `buy_premium` evaluated at the failing input.
With `PREMIUM_REQUESTS = 100` and `PREMIUM_TARGETS = 10`, the top-up adds
100 to `requests_left` and 10 to `targets_left`, but the appended
`PremiumPurchase` row carries `request_increment = 10` and
`targets_increment = 100`: the record's per-resource grants are swapped
relative to the top-up, contradicting the claim (and the intent shown by
the column defaults, `add_premium_purchase_for_premium_users`, and the
reconciler's use of `request_increment` for `requests_left`). -/
theorem buy_premium_swaps_grant_fields :
    let db0 : Db := { users := [{ userFree1 with requests_left := 0 }],
                      purchases := [], scheduler_logs := [] }
    let db1 := buy_premium cfgA db0 1 0
    (fetchUser db1 1).map User.requests_left = some 100 ∧
    (fetchUser db1 1).map User.targets_left = some 10 ∧
    db1.purchases.map PremiumPurchase.request_increment = [10] ∧
    db1.purchases.map PremiumPurchase.targets_increment = [100] ∧
    ¬ db1.purchases.map PremiumPurchase.request_increment = [100] := by
  decide

/-- C4: a user whose only purchases are two active records granting
(+100 requests, 0 targets) and (+50 requests, +10 targets) ends a
reconciliation run with `requests_left = 150` and `targets_left = 10`,
whatever balances, status and expiration the row held before — an
overwrite, not an addition.  Universal over the configuration, the prior
user row and the scheduler log. -/
theorem update_user_quotas_overwrites_with_grant_sums
    (c : Config) (u : User) (logs : List SchedulerLog) :
    (update_user_quotas c
      { users := [u],
        purchases :=
          [{ user_id := u.user_id, purchase_date := 0, expiration_date := 5,
             targets_increment := 0, request_increment := 100 },
           { user_id := u.user_id, purchase_date := 0, expiration_date := 5,
             targets_increment := 10, request_increment := 50 }],
        scheduler_logs := logs } 3).users =
      [{ u with requests_left := 150, targets_left := 10 }] := by
  simp [update_user_quotas, reconcileStep, removePred, activePred]

/-- C7 (counterexample): `decrement_requests_left` on a balance of 3 with
`n = 5` clamps the balance to 0 but returns `None` (the function is
annotated `-> None` and has no return statement), not the consumed amount
3 the claim promises. -/
theorem decrement_requests_left_returns_none :
    let db7 : Db := { users := [{ userFree1 with requests_left := 3 }],
                      purchases := [], scheduler_logs := [] }
    let r := decrement_requests_left db7 1 5
    (fetchUser r.1 1).map User.requests_left = some 0 ∧
    r.2 = none ∧ ¬ r.2 = some 3 := by
  decide

/-- Lookup by user id commutes with updating the rows of one user id, when
the update preserves the id column. -/
theorem find?_map_preserve (l : List User) (uid vid : Nat) (f : User → User)
    (hf : ∀ u, (f u).user_id = u.user_id) :
    (l.map fun u => if u.user_id == uid then f u else u).find?
        (fun u => u.user_id == vid) =
      (l.find? fun u => u.user_id == vid).map
        (fun u => if u.user_id == uid then f u else u) := by
  induction l with
  | nil => rfl
  | cons a l ih =>
    simp only [List.map_cons]
    by_cases ha : (a.user_id == uid) = true
    · rw [if_pos ha]
      by_cases hv : (a.user_id == vid) = true
      · have h1 : ((f a).user_id == vid) = true := by rw [hf]; exact hv
        rw [List.find?_cons_of_pos (p := fun u : User => u.user_id == vid) _ h1,
            List.find?_cons_of_pos (p := fun u : User => u.user_id == vid) _ hv]
        have ha' : a.user_id = uid := by simpa using ha
        simp [ha']
      · have h1 : ¬ ((f a).user_id == vid) = true := by rw [hf]; exact hv
        rw [List.find?_cons_of_neg (p := fun u : User => u.user_id == vid) _ h1,
            List.find?_cons_of_neg (p := fun u : User => u.user_id == vid) _ hv]
        exact ih
    · rw [if_neg ha]
      by_cases hv : (a.user_id == vid) = true
      · rw [List.find?_cons_of_pos (p := fun u : User => u.user_id == vid) _ hv,
            List.find?_cons_of_pos (p := fun u : User => u.user_id == vid) _ hv]
        have ha' : ¬ a.user_id = uid := by simpa using ha
        simp [ha']
      · rw [List.find?_cons_of_neg (p := fun u : User => u.user_id == vid) _ hv,
            List.find?_cons_of_neg (p := fun u : User => u.user_id == vid) _ hv]
        exact ih

/-- Fetching after a one-user update, when the update preserves the id
column. -/
theorem fetchUser_mapUser (db : Db) (uid vid : Nat) (f : User → User)
    (hf : ∀ u, (f u).user_id = u.user_id) :
    fetchUser (mapUser db uid f) vid =
      (fetchUser db vid).map fun u => if u.user_id == uid then f u else u := by
  simpa [fetchUser, mapUser] using find?_map_preserve db.users uid vid f hf

/-- A fetched row matches the id it was fetched by. -/
theorem fetchUser_id {db : Db} {uid : Nat} {u : User}
    (hu : fetchUser db uid = some u) : (u.user_id == uid) = true := by
  have hu' : db.users.find? (fun v => v.user_id == uid) = some u := hu
  have h2 := List.find?_some hu'
  simpa using h2

/-- C7 (amended): for a nonnegative decrement amount on an existing row
with a nonnegative balance, `decrement_requests_left` sets the balance to
`max 0 (balance - n)` — never negative, never an error — and returns
nothing; the consumed amount `balance_before - balance_after` is not
returned. -/
theorem decrement_requests_left_clamps (db : Db) (uid : Nat) (n : Int) (u : User)
    (hn : 0 ≤ n) (hu : fetchUser db uid = some u) (hb : 0 ≤ u.requests_left) :
    fetchUser (decrement_requests_left db uid n).1 uid =
      some { u with requests_left := max 0 (u.requests_left - n) } ∧
    (decrement_requests_left db uid n).2 = none := by
  have hid : (u.user_id == uid) = true := fetchUser_id hu
  refine ⟨?_, rfl⟩
  have hf : ∀ v : User,
      ((if 0 < v.requests_left then
          { v with requests_left := max 0 (v.requests_left - n) }
        else { v with requests_left := 0 }).user_id) = v.user_id := by
    intro v
    by_cases h : 0 < v.requests_left <;> simp [h]
  rw [show (decrement_requests_left db uid n).1 = mapUser db uid (fun v =>
      if 0 < v.requests_left then
        { v with requests_left := max 0 (v.requests_left - n) }
      else { v with requests_left := 0 }) from rfl]
  rw [fetchUser_mapUser db uid uid _ hf, hu]
  have hid' : u.user_id = uid := by simpa using hid
  by_cases h : 0 < u.requests_left
  · simp [hid', h]
  · have hz : u.requests_left = 0 := by omega
    have hmax : max 0 (u.requests_left - n) = 0 := by
      rw [hz, max_eq_left (by omega)]
    simp [hid', h, hmax]

/-- C7 (witness): the amended clamp theorem applied at balance 3, n = 5. -/
theorem decrement_requests_left_clamps_witness :
    fetchUser (decrement_requests_left
        { users := [{ userFree1 with requests_left := 3 }], purchases := [],
          scheduler_logs := [] } 1 5).1 1 =
      some { userFree1 with requests_left := max 0 ((3 : Int) - 5) } ∧
    (decrement_requests_left
        { users := [{ userFree1 with requests_left := 3 }], purchases := [],
          scheduler_logs := [] } 1 5).2 = none :=
  decrement_requests_left_clamps
    { users := [{ userFree1 with requests_left := 3 }], purchases := [],
      scheduler_logs := [] } 1 5 { userFree1 with requests_left := 3 }
    (by decide) (by decide) (by decide)

/-- C9 (counterexample): a free user whose last accepted photo was at t=0 is
rejected at t=5 and at t=19 with the very same fixed `too_fast` message —
the rejection output is independent of the remaining wait (15s in the first
case, 1s in the second), so the gate does not report the remaining wait time
to the user. -/
theorem check_time_limit_rejection_is_constant :
    check_time_limit { userFree1 with last_photo_sent_timestamp := 0 } 5 20 =
      (false, [Msg.tooFast]) ∧
    check_time_limit { userFree1 with last_photo_sent_timestamp := 0 } 19 20 =
      (false, [Msg.tooFast]) ∧
    (check_time_limit { userFree1 with last_photo_sent_timestamp := 0 } 5 20).2 =
      (check_time_limit { userFree1 with last_photo_sent_timestamp := 0 } 19 20).2 := by
  decide

/-- C9 (amended): the cooldown gate passes every premium submission and
rejects a free-tier submission exactly when `now - last_request_at <
n_time`; on rejection the user gets the fixed `too_fast` notice (not the
remaining wait).  In particular a free user with an accepted photo at t=0 is
rejected at t=5 with cooldown 20, while a premium user at the same cadence
passes. -/
theorem check_time_limit_gate :
    (∀ (u : User) (now t : Int),
      check_time_limit u now t =
        ((u.status == "premium") || !(decide (now - u.last_photo_sent_timestamp < t)),
         if (u.status == "premium") || !(decide (now - u.last_photo_sent_timestamp < t))
         then [] else [Msg.tooFast])) ∧
    check_time_limit { userFree1 with last_photo_sent_timestamp := 0 } 5 20 =
      (false, [Msg.tooFast]) ∧
    check_time_limit
      { userFree1 with last_photo_sent_timestamp := 0, status := "premium" } 5 20 =
      (true, []) := by
  refine ⟨?_, by decide, by decide⟩
  intro u now t
  by_cases hs : (u.status == "premium") = true
  · simp [check_time_limit, hs]
  · by_cases ht : now - u.last_photo_sent_timestamp < t
    · simp [check_time_limit, hs, ht]
    · simp [check_time_limit, hs, ht]

/-- C2 (counterexample): a free user with `requests_left = 1` whose FaceSwap
call returns 3 outputs is delivered all 3 of them, not exactly 1: the
per-output balance re-check reads `requests_left = 1 > 0` each time because
the single decrement only happens after the delivery loop. -/
theorem image_pipeline_no_early_stop :
    (image_handler_received_result dbFree1 userFree1 (["a", "b", "c"])).map
        (fun x => deliveredCount x.2.2) = some 3 ∧
    ¬ (image_handler_received_result dbFree1 userFree1 (["a", "b", "c"])).map
        (fun x => deliveredCount x.2.2) = some 1 := by
  decide

/-- C2 (amended): for a free user with `requests_left = 1` and a successful
FaceSwap call returning 3 outputs, the pipeline delivers all 3 outputs,
reports remaining = 0 (computed as `max(0, 1 - 3)` from the stale
snapshot), and leaves the user's `requests_left` at 0 (the clamped
decrement by 3). -/
theorem image_pipeline_delivers_three :
    image_handler_received_result dbFree1 userFree1 (["a", "b", "c"]) =
      some ({ users := [{ userFree1 with requests_left := 0 }], purchases := [],
              scheduler_logs := [] }, true,
            [Msg.photo ("a"), Msg.photo ("b"), Msg.photo ("c"),
             Msg.attemptsLeft 0]) ∧
    ((image_handler_received_result dbFree1 userFree1 (["a", "b", "c"])).map
        (fun x => (fetchUser x.1 1).map User.requests_left)) = some (some 0) := by
  decide

/-- C6 (counterexample): a premium user whose one purchase has expired is
reverted to free status with `requests_left` reset, but `targets_left` is
left at its prior value 7 — it is not reset to the free baseline of 0
(`set_requests_left` and the column default define that baseline). -/
theorem reconciliation_keeps_targets_counterexample :
    (fetchUser (update_user_quotas cfgA
        { users := [({ userFree1 with
                       status := "premium", requests_left := 55,
                       targets_left := 7 })],
          purchases := [{ user_id := 1, purchase_date := 0, expiration_date := 2,
                          targets_increment := 10, request_increment := 100 }],
          scheduler_logs := [] } 5) 1) =
      some { userFree1 with
             status := "free", requests_left := 10, targets_left := 7 } ∧
    ¬ (fetchUser (update_user_quotas cfgA
        { users := [({ userFree1 with
                       status := "premium", requests_left := 55,
                       targets_left := 7 })],
          purchases := [{ user_id := 1, purchase_date := 0, expiration_date := 2,
                          targets_increment := 10, request_increment := 100 }],
          scheduler_logs := [] } 5) 1).map User.targets_left = some 0 := by
  decide

/-- A per-id row update is the identity when no row carries the id. -/
theorem map_user_noop (l : List User) (uid : Nat) (f : User → User)
    (h : ∀ u ∈ l, ¬ u.user_id = uid) :
    (l.map fun u => if u.user_id == uid then f u else u) = l := by
  induction l with
  | nil => rfl
  | cons a t ih =>
    have ha : ¬ (a.user_id == uid) = true := by
      simpa using h a (by simp)
    simp only [List.map_cons, if_neg ha]
    rw [ih fun u hu => h u (by simp [hu])]

/-- Updating via `mapUser` is the identity when no row carries the id. -/
theorem mapUser_absent (db : Db) (uid : Nat) (f : User → User)
    (h : ∀ u ∈ db.users, ¬ u.user_id = uid) : mapUser db uid f = db := by
  show { db with users := _ } = db
  rw [map_user_noop db.users uid f h]

/-- C10: every ledger mutation addressed to a user id with no existing row —
decrementing either resource, setting the mode, toggling the receive-target
flag, updating the photo timestamp — is a silent no-op: it returns normally
(`decrement_requests_left` still returns its usual `None`), creates no row,
and leaves the store exactly unchanged. -/
theorem ledger_mutations_absent_user_noop (db : Db) (uid : Nat)
    (n n2 ts flag : Int) (m : String)
    (h : ∀ u ∈ db.users, ¬ u.user_id = uid) :
    (decrement_requests_left db uid n).1 = db ∧
    (decrement_requests_left db uid n).2 = none ∧
    decrement_targets_left db uid n2 = db ∧
    update_user_mode db uid m = db ∧
    toggle_receive_target_flag db uid flag = db ∧
    update_photo_timestamp db uid ts = db := by
  refine ⟨?_, rfl, ?_, ?_, ?_, ?_⟩ <;>
    exact mapUser_absent db uid _ h

/-- C10 (witness): the no-op theorem applied to a store that has only user
1, addressing user id 2. -/
theorem ledger_mutations_absent_user_noop_witness :
    (decrement_requests_left dbFree1 2 1).1 = dbFree1 ∧
    (decrement_requests_left dbFree1 2 1).2 = none ∧
    decrement_targets_left dbFree1 2 3 = dbFree1 ∧
    update_user_mode dbFree1 2 ("5") = dbFree1 ∧
    toggle_receive_target_flag dbFree1 2 1 = dbFree1 ∧
    update_photo_timestamp dbFree1 2 7 = dbFree1 :=
  ledger_mutations_absent_user_noop dbFree1 2 1 3 7 1 ("5") (by decide)

/-- A list of nonnegative integers has a nonnegative sum. -/
theorem sum_nonneg_ints (l : List Int) (h : ∀ x ∈ l, 0 ≤ x) : 0 ≤ l.sum := by
  induction l with
  | nil => simp
  | cons a t ih =>
    have ha := h a (by simp)
    have ht := ih fun x hx => h x (by simp [hx])
    simp only [List.sum_cons]
    omega

/-- Updating via `mapUser` preserves nonnegative balances when the row update
does. -/
theorem balancesNonneg_mapUser {db : Db} {uid : Nat} {f : User → User}
    (h : BalancesNonneg db)
    (hf : ∀ u : User, 0 ≤ u.requests_left → 0 ≤ u.targets_left →
      0 ≤ (f u).requests_left ∧ 0 ≤ (f u).targets_left) :
    BalancesNonneg (mapUser db uid f) := by
  intro v hv
  rcases List.mem_map.mp hv with ⟨u, hu, rfl⟩
  by_cases hid : (u.user_id == uid) = true
  · rw [if_pos hid]; exact hf u (h u hu).1 (h u hu).2
  · rw [if_neg hid]; exact h u hu

/-- One pass of the reconcile loop keeps balances and grants nonnegative. -/
theorem reconcile_fold_nonneg (c : Config) (today : Int) (us acc : List User)
    (ps : List PremiumPurchase) (hfr : 0 ≤ c.free_requests)
    (hacc : ∀ u ∈ acc, 0 ≤ u.requests_left ∧ 0 ≤ u.targets_left)
    (hus : ∀ u ∈ us, 0 ≤ u.requests_left ∧ 0 ≤ u.targets_left)
    (hps : ∀ p ∈ ps, 0 ≤ p.request_increment ∧ 0 ≤ p.targets_increment) :
    (∀ u ∈ (us.foldl (reconcileStep c today) (acc, ps)).1,
      0 ≤ u.requests_left ∧ 0 ≤ u.targets_left) ∧
    (∀ p ∈ (us.foldl (reconcileStep c today) (acc, ps)).2,
      0 ≤ p.request_increment ∧ 0 ≤ p.targets_increment) := by
  induction us generalizing acc ps with
  | nil => exact ⟨hacc, hps⟩
  | cons u t ih =>
    simp only [List.foldl_cons]
    have hps1 : ∀ p ∈ ps.filter fun p => !(removePred today u.user_id p),
        0 ≤ p.request_increment ∧ 0 ≤ p.targets_increment :=
      fun p hp => hps p (List.mem_of_mem_filter hp)
    refine ih _ _ ?_ (fun v hv => hus v (by simp [hv])) hps1
    intro v hv
    simp only [reconcileStep, List.mem_append, List.mem_singleton] at hv
    rcases hv with hv | rfl
    · exact hacc v hv
    · by_cases hA : ((ps.filter fun p => !(removePred today u.user_id p)).filter
          (activePred today u.user_id)).isEmpty = true
      · simp only [if_pos hA]
        exact ⟨hfr, (hus u (by simp)).2⟩
      · simp only [if_neg hA]
        constructor
        · refine sum_nonneg_ints _ fun x hx => ?_
          rcases List.mem_map.mp hx with ⟨p, hp, rfl⟩
          exact (hps1 p (List.mem_of_mem_filter hp)).1
        · refine sum_nonneg_ints _ fun x hx => ?_
          rcases List.mem_map.mp hx with ⟨p, hp, rfl⟩
          exact (hps1 p (List.mem_of_mem_filter hp)).2

/-- One ledger operation preserves nonnegative balances and grants. -/
theorem applyOp_nonneg (c : Config) (db : Db) (op : LedgerOp)
    (hc : 0 ≤ c.free_requests ∧ 0 ≤ c.premium_requests ∧ 0 ≤ c.premium_targets)
    (hop : OpNonneg op) (hb : BalancesNonneg db) (hg : GrantsNonneg db) :
    BalancesNonneg (applyOp c db op) ∧ GrantsNonneg (applyOp c db op) := by
  rcases op with ⟨uid, n⟩ | ⟨uid, n⟩ | ⟨uid, now⟩ | ⟨uid, k⟩ | today
  · refine ⟨balancesNonneg_mapUser hb ?_, hg⟩
    intro u h1 h2
    by_cases h : 0 < u.requests_left
    · exact ⟨by rw [if_pos h]; exact le_max_left 0 _, by rw [if_pos h]; exact h2⟩
    · exact ⟨by rw [if_neg h], by rw [if_neg h]; exact h2⟩
  · refine ⟨balancesNonneg_mapUser hb ?_, hg⟩
    intro u h1 h2
    by_cases h : 0 < u.targets_left
    · exact ⟨by rw [if_pos h]; exact h1, by rw [if_pos h]; exact le_max_left 0 _⟩
    · exact ⟨by rw [if_neg h]; exact h1, by rw [if_neg h]; exact h2⟩
  · show BalancesNonneg (buy_premium c db uid now) ∧ GrantsNonneg (buy_premium c db uid now)
    unfold buy_premium
    cases hfu : fetchUser db uid with
    | none => exact ⟨hb, hg⟩
    | some u0 =>
      constructor
      · refine balancesNonneg_mapUser (fun v hv => hb v hv) ?_
        intro u h1 h2
        exact ⟨by simp; omega, by simp; omega⟩
      · intro p hp
        simp only [mapUser] at hp
        rcases List.mem_append.mp hp with hp | hp
        · exact hg p hp
        · simp only [List.mem_singleton] at hp
          subst hp
          exact ⟨hc.2.2, hc.2.1⟩
  · show BalancesNonneg (set_requests_left db uid k) ∧ GrantsNonneg (set_requests_left db uid k)
    unfold set_requests_left
    cases hfu : fetchUser db uid with
    | none => exact ⟨hb, hg⟩
    | some u0 =>
      constructor
      · refine balancesNonneg_mapUser hb ?_
        intro u h1 h2
        exact ⟨hop, le_refl 0⟩
      · intro p hp
        exact hg p (List.mem_of_mem_filter hp)
  · have h := reconcile_fold_nonneg c today db.users [] db.purchases hc.1
      (by intro u hu; cases hu) hb hg
    exact ⟨h.1, h.2⟩

/-- C1: starting from a store whose balances and purchase grants are
nonnegative, with nonnegative configured grant constants and nonnegative
reset amounts (the repository's call sites pass 10 or `FREE_REQUESTS`),
every sequence of ledger operations — clamped decrements of either
resource, purchases, resets, reconciliation runs — leaves every user's
`requests_left` and `targets_left` nonnegative (and every purchase grant
nonnegative), so the invariant holds in every reachable state. -/
theorem balances_never_negative (c : Config) (db : Db) (ops : List LedgerOp)
    (hc : 0 ≤ c.free_requests ∧ 0 ≤ c.premium_requests ∧ 0 ≤ c.premium_targets)
    (hb : BalancesNonneg db) (hg : GrantsNonneg db)
    (hops : ∀ op ∈ ops, OpNonneg op) :
    BalancesNonneg (applyOps c db ops) ∧ GrantsNonneg (applyOps c db ops) := by
  induction ops generalizing db with
  | nil => exact ⟨hb, hg⟩
  | cons op t ih =>
    have h1 := applyOp_nonneg c db op hc (hops op (by simp)) hb hg
    exact ih (applyOp c db op) h1.1 h1.2 fun o ho => hops o (by simp [ho])

/-- C1 (witness): the invariant theorem applied to a concrete store and a
concrete operation sequence exercising every operation kind. -/
theorem balances_never_negative_witness :
    BalancesNonneg (applyOps cfgA dbFree1
      [LedgerOp.decReq 1 1, LedgerOp.buy 1 0, LedgerOp.decTgt 1 4,
       LedgerOp.reconcile 40, LedgerOp.reset 1 10, LedgerOp.reconcile 50]) ∧
    GrantsNonneg (applyOps cfgA dbFree1
      [LedgerOp.decReq 1 1, LedgerOp.buy 1 0, LedgerOp.decTgt 1 4,
       LedgerOp.reconcile 40, LedgerOp.reset 1 10, LedgerOp.reconcile 50]) :=
  balances_never_negative cfgA dbFree1
    [LedgerOp.decReq 1 1, LedgerOp.buy 1 0, LedgerOp.decTgt 1 4,
     LedgerOp.reconcile 40, LedgerOp.reset 1 10, LedgerOp.reconcile 50]
    (by decide) (by unfold BalancesNonneg; decide) (by unfold GrantsNonneg; decide)
    (by intro op hop; fin_cases hop <;> simp [OpNonneg])

/-- Deleting one user's expired purchases does not change any user's active
purchase set: a deleted row is expired, so it was never active. -/
theorem act_filter_remove (today : Int) (uid vid : Nat)
    (ps : List PremiumPurchase) :
    (ps.filter fun p => !(removePred today vid p)).filter (activePred today uid) =
      ps.filter (activePred today uid) := by
  induction ps with
  | nil => rfl
  | cons a t ih =>
    by_cases hr : removePred today vid a = true
    · have ha : activePred today uid a = false := by
        unfold removePred at hr
        simp only [Bool.and_eq_true, decide_eq_true_eq] at hr
        have hlt : a.expiration_date < today := hr.2
        unfold activePred
        by_cases hu : (a.user_id == uid) = true
        · simp only [hu, Bool.true_and, decide_eq_false_iff_not]
          omega
        · simp [hu]
      simp [List.filter_cons, hr, ha, ih]
    · simp [List.filter_cons, hr, ih]

/-- The per-user reconcile `reconOne` does not touch the id column. -/
theorem reconOne_user_id (c : Config) (today : Int) (ps : List PremiumPurchase)
    (u : User) : (reconOne c today ps u).user_id = u.user_id := by
  unfold reconOne
  by_cases h : (ps.filter (activePred today u.user_id)).isEmpty = true <;> simp [h]

/-- The per-user reconcile is unchanged by deleting some user's expired
purchases. -/
theorem reconOne_remove (c : Config) (today : Int) (vid : Nat)
    (ps : List PremiumPurchase) (u : User) :
    reconOne c today (ps.filter fun p => !(removePred today vid p)) u =
      reconOne c today ps u := by
  unfold reconOne
  rw [act_filter_remove]

/-- Pointwise version of `reconOne_remove` over a user list. -/
theorem map_reconOne_remove (c : Config) (today : Int) (vid : Nat)
    (ps : List PremiumPurchase) (us : List User) :
    us.map (reconOne c today (ps.filter fun p => !(removePred today vid p))) =
      us.map (reconOne c today ps) := by
  induction us with
  | nil => rfl
  | cons a t ih => simp [reconOne_remove, ih]

/-- One reconcile iteration, in closed form. -/
theorem reconcileStep_eq (c : Config) (today : Int) (acc : List User)
    (ps : List PremiumPurchase) (u : User) :
    reconcileStep c today (acc, ps) u =
      (acc ++ [reconOne c today ps u],
       ps.filter fun p => !(removePred today u.user_id p)) := by
  simp only [reconcileStep, reconOne]
  rw [act_filter_remove]

/-- The users component of the reconcile loop: each user row is rewritten by
`reconOne` against the purchase table as it stood when the loop started. -/
theorem foldl_users_closed (c : Config) (today : Int) (us : List User) :
    ∀ (acc : List User) (ps : List PremiumPurchase),
      (us.foldl (reconcileStep c today) (acc, ps)).1 =
        acc ++ us.map (reconOne c today ps) := by
  induction us with
  | nil => intro acc ps; simp
  | cons u t ih =>
    intro acc ps
    simp only [List.foldl_cons, List.map_cons]
    rw [reconcileStep_eq, ih, map_reconOne_remove]
    simp

/-- The purchases component of the reconcile loop: the expired rows of each
listed user are deleted. -/
theorem foldl_purchases_closed (c : Config) (today : Int) (us : List User) :
    ∀ (acc : List User) (ps : List PremiumPurchase),
      (us.foldl (reconcileStep c today) (acc, ps)).2 =
        removeAll today (us.map User.user_id) ps := by
  induction us with
  | nil => intro acc ps; rfl
  | cons u t ih =>
    intro acc ps
    simp only [List.foldl_cons, List.map_cons]
    rw [reconcileStep_eq, ih]
    rfl

/-- Closed form of a reconciliation run. -/
theorem update_user_quotas_closed (c : Config) (db : Db) (today : Int) :
    update_user_quotas c db today =
      { db with users := db.users.map (reconOne c today db.purchases),
                purchases :=
                  removeAll today (db.users.map User.user_id) db.purchases } := by
  simp only [update_user_quotas]
  rw [foldl_users_closed, foldl_purchases_closed]
  simp

/-- C6 (amended): after a reconciliation run, every user with at least one
active (non-expired) purchase row has both balances overwritten with the
grant sums while `status` (tier) and `premium_expiration` are left
untouched — the run never sets the tier to premium; and every user with no
active row gets `status = "free"`, `requests_left` reset to the free
baseline and `premium_expiration = null`, while `targets_left` is left at
its prior value rather than being reset. -/
theorem reconciliation_postcondition (c : Config) (db : Db) (today : Int) :
    (update_user_quotas c db today).users =
      db.users.map fun u =>
        if (db.purchases.filter (activePred today u.user_id)).isEmpty then
          { u with status := "free", requests_left := c.free_requests,
                   premium_expiration := none }
        else
          { u with requests_left :=
                     ((db.purchases.filter (activePred today u.user_id)).map
                       PremiumPurchase.request_increment).sum,
                   targets_left :=
                     ((db.purchases.filter (activePred today u.user_id)).map
                       PremiumPurchase.targets_increment).sum } := by
  rw [update_user_quotas_closed]
  rfl

/-- The latest-entry fold of `lastLog` returns the accumulator or a list
element. -/
theorem fold_max_mem (xs : List SchedulerLog) :
    ∀ (acc : Option SchedulerLog) (a : SchedulerLog),
      xs.foldl (fun acc e =>
        match acc with
        | none => some e
        | some b => if b.run_datetime < e.run_datetime then some e else acc) acc =
        some a →
      acc = some a ∨ a ∈ xs := by
  induction xs with
  | nil => intro acc a h; exact Or.inl h
  | cons x t ih =>
    intro acc a h
    simp only [List.foldl_cons] at h
    rcases ih _ a h with h1 | h1
    · cases acc with
      | none =>
        have hx : x = a := Option.some.inj h1
        exact Or.inr (by simp [hx])
      | some b =>
        have h2 : (if b.run_datetime < x.run_datetime then some x else some b) =
            some a := h1
        by_cases hb : b.run_datetime < x.run_datetime
        · rw [if_pos hb] at h2
          exact Or.inr (by simp [Option.some.inj h2])
        · rw [if_neg hb] at h2
          exact Or.inl h2
    · exact Or.inr (by simp [h1])

/-- A `lastLog` result is an entry of the log with the queried job name. -/
theorem lastLog_mem (logs : List SchedulerLog) (job : String) (a : SchedulerLog)
    (h : lastLog logs job = some a) : a ∈ logs ∧ a.job_name = job := by
  unfold lastLog at h
  rcases fold_max_mem _ _ _ h with h1 | h1
  · cases h1
  · have h2 := List.mem_filter.mp h1
    exact ⟨h2.1, by simpa using h2.2⟩

/-- The latest-entry fold lands on `e` when `e` is the last element and
strictly newer than everything before it and than the accumulator. -/
theorem fold_max_append (e : SchedulerLog) (xs : List SchedulerLog) :
    ∀ acc : Option SchedulerLog,
      (∀ x ∈ xs, x.run_datetime < e.run_datetime) →
      (acc = none ∨ ∃ b, acc = some b ∧ b.run_datetime < e.run_datetime) →
      (xs ++ [e]).foldl (fun acc x =>
        match acc with
        | none => some x
        | some b => if b.run_datetime < x.run_datetime then some x else acc) acc =
        some e := by
  induction xs with
  | nil =>
    intro acc hxs hacc
    rcases hacc with rfl | ⟨b, rfl, hb⟩
    · rfl
    · show (if b.run_datetime < e.run_datetime then some e else some b) = some e
      rw [if_pos hb]
  | cons x t ih =>
    intro acc hxs hacc
    simp only [List.cons_append, List.foldl_cons]
    refine ih _ (fun y hy => hxs y (by simp [hy])) ?_
    have hx : x.run_datetime < e.run_datetime := hxs x (by simp)
    rcases hacc with rfl | ⟨b, rfl, hb⟩
    · exact Or.inr ⟨x, rfl, hx⟩
    · show _ ∨ ∃ c, (if b.run_datetime < x.run_datetime then some x else some b) =
          some c ∧ c.run_datetime < e.run_datetime
      by_cases hbx : b.run_datetime < x.run_datetime
      · exact Or.inr ⟨x, by rw [if_pos hbx], hx⟩
      · exact Or.inr ⟨b, by rw [if_neg hbx], hb⟩

/-- Appending a strictly newest entry for `job` makes it the `lastLog`. -/
theorem lastLog_append (logs : List SchedulerLog) (e : SchedulerLog) (job : String)
    (he : e.job_name = job)
    (hlt : ∀ x ∈ logs, x.job_name = job → x.run_datetime < e.run_datetime) :
    lastLog (logs ++ [e]) job = some e := by
  unfold lastLog
  rw [List.filter_append]
  have h1 : List.filter (fun x => x.job_name == job) [e] = [e] := by simp [he]
  rw [h1]
  refine fold_max_append e _ none ?_ (Or.inl rfl)
  intro x hx
  have h2 := List.mem_filter.mp hx
  exact hlt x h2.1 (by simpa using h2.2)

/-- Rows surviving `removeAll` are original rows matching none of the
deletion predicates. -/
theorem mem_removeAll (today : Int) :
    ∀ (ids : List Nat) (ps : List PremiumPurchase) (p : PremiumPurchase),
      p ∈ removeAll today ids ps →
      p ∈ ps ∧ ∀ i ∈ ids, removePred today i p = false := by
  intro ids
  induction ids with
  | nil =>
    intro ps p h
    exact ⟨h, by intro i hi; cases hi⟩
  | cons i t ih =>
    intro ps p h
    have h2 := ih _ p h
    have h3 := List.mem_filter.mp h2.1
    refine ⟨h3.1, ?_⟩
    intro j hj
    rcases List.mem_cons.mp hj with rfl | hj
    · simpa using h3.2
    · exact h2.2 j hj

/-- Deleting via `removeAll` is the identity on a table it has nothing to
delete from. -/
theorem removeAll_clean (today : Int) :
    ∀ (ids : List Nat) (ps : List PremiumPurchase),
      (∀ p ∈ ps, ∀ i ∈ ids, removePred today i p = false) →
      removeAll today ids ps = ps := by
  intro ids
  induction ids with
  | nil => intro ps _; rfl
  | cons i t ih =>
    intro ps h
    have hf : (ps.filter fun p => !(removePred today i p)) = ps := by
      apply List.filter_eq_self.mpr
      intro p hp
      simp [h p hp i (by simp)]
    show removeAll today t (ps.filter fun p => !(removePred today i p)) = ps
    rw [hf]
    exact ih ps fun p hp j hj => h p hp j (by simp [hj])

/-- Deleting expired rows twice is the same as deleting them once. -/
theorem removeAll_idem (today : Int) (ids : List Nat) (ps : List PremiumPurchase) :
    removeAll today ids (removeAll today ids ps) = removeAll today ids ps :=
  removeAll_clean today ids _ fun p hp i hi => (mem_removeAll today ids ps p hp).2 i hi

/-- Deleting expired rows never changes an active purchase set. -/
theorem act_removeAll (today : Int) (uid : Nat) :
    ∀ (ids : List Nat) (ps : List PremiumPurchase),
      (removeAll today ids ps).filter (activePred today uid) =
        ps.filter (activePred today uid) := by
  intro ids
  induction ids with
  | nil => intro ps; rfl
  | cons i t ih =>
    intro ps
    show (removeAll today t (ps.filter fun p => !(removePred today i p))).filter
        (activePred today uid) = _
    rw [ih, act_filter_remove]

/-- The per-user reconcile preserves the id column, lifted over a map. -/
theorem map_user_id_reconOne (c : Config) (today : Int)
    (ps : List PremiumPurchase) (us : List User) :
    (us.map (reconOne c today ps)).map User.user_id = us.map User.user_id := by
  induction us with
  | nil => rfl
  | cons a t ih => simp [reconOne_user_id, ih]

/-- Evaluating `reconOne` against a purchase table through a known active
set. -/
theorem reconOne_eq_of_active (c : Config) (today : Int)
    (ps : List PremiumPurchase) (v : User) (A : List PremiumPurchase)
    (hA : ps.filter (activePred today v.user_id) = A) :
    reconOne c today ps v =
      if A.isEmpty then
        { v with status := "free", requests_left := c.free_requests,
                 premium_expiration := none }
      else
        { v with requests_left := (A.map PremiumPurchase.request_increment).sum,
                 targets_left := (A.map PremiumPurchase.targets_increment).sum } := by
  simp only [reconOne]
  rw [hA]

/-- Applying `reconOne` a second time, against any purchase table with the
same active sets, changes nothing. -/
theorem reconOne_idem (c : Config) (today : Int) (ps ps2 : List PremiumPurchase)
    (u : User)
    (hact : ps2.filter (activePred today u.user_id) =
      ps.filter (activePred today u.user_id)) :
    reconOne c today ps2 (reconOne c today ps u) = reconOne c today ps u := by
  have hv : (reconOne c today ps u).user_id = u.user_id :=
    reconOne_user_id c today ps u
  have hA2 : ps2.filter (activePred today (reconOne c today ps u).user_id) =
      ps.filter (activePred today u.user_id) := by rw [hv, hact]
  rw [reconOne_eq_of_active c today ps2 (reconOne c today ps u) _ hA2]
  by_cases h : (ps.filter (activePred today u.user_id)).isEmpty = true
  · rw [if_pos h]
    have h1 := reconOne_eq_of_active c today ps u _ rfl
    rw [if_pos h] at h1
    rw [h1]
  · rw [if_neg h]
    have h1 := reconOne_eq_of_active c today ps u _ rfl
    rw [if_neg h] at h1
    rw [h1]

/-- Lifting `reconOne_idem` over a user list. -/
theorem map_reconOne_all (c : Config) (today : Int) (ps ps2 : List PremiumPurchase)
    (hact : ∀ uid, ps2.filter (activePred today uid) =
      ps.filter (activePred today uid)) (us : List User) :
    (us.map (reconOne c today ps)).map (reconOne c today ps2) =
      us.map (reconOne c today ps) := by
  induction us with
  | nil => rfl
  | cons a t ih =>
    simp only [List.map_cons, ih]
    rw [reconOne_idem c today ps ps2 a (hact a.user_id)]

/-- C5 (counterexample): a user consumes one credit between two
reconciliation invocations made under the same interval (interval 24h,
second invocation one second after the first); the second invocation
overwrites the balance back to the grant total 100 instead of leaving it at
the 99 that consumption had produced — only the scheduler-log append is
skipped, the balance overwrite is re-applied. -/
theorem reconciliation_rerun_resets_consumption :
    ((fetchUser ((decrement_requests_left (update_user_quotas_run cfgA
        { users := [userFree1],
          purchases := [{ user_id := 1, purchase_date := 0, expiration_date := 10,
                          targets_increment := 0, request_increment := 100 }],
          scheduler_logs := [] } 0 0) 1 1).1) 1).map User.requests_left = some 99) ∧
    ((fetchUser (update_user_quotas_run cfgA ((decrement_requests_left
        (update_user_quotas_run cfgA
          { users := [userFree1],
            purchases := [{ user_id := 1, purchase_date := 0, expiration_date := 10,
                            targets_increment := 0, request_increment := 100 }],
            scheduler_logs := [] } 0 0) 1 1).1) 0 1) 1).map User.requests_left =
      some 100) ∧
    ¬ update_user_quotas_run cfgA ((decrement_requests_left
        (update_user_quotas_run cfgA
          { users := [userFree1],
            purchases := [{ user_id := 1, purchase_date := 0, expiration_date := 10,
                            targets_increment := 0, request_increment := 100 }],
            scheduler_logs := [] } 0 0) 1 1).1) 0 1 =
      (decrement_requests_left (update_user_quotas_run cfgA
        { users := [userFree1],
          purchases := [{ user_id := 1, purchase_date := 0, expiration_date := 10,
                          targets_increment := 0, request_increment := 100 }],
          scheduler_logs := [] } 0 0) 1 1).1 := by
  decide

/-- Unfolding `log_scheduler_run` when the job has no previous entry. -/
theorem log_scheduler_run_none (db : Db) (job st : String) (now hd : Int)
    (h : lastLog db.scheduler_logs job = none) :
    log_scheduler_run db job st now hd =
      { db with scheduler_logs := db.scheduler_logs ++
          [{ job_name := job, run_datetime := now, run_status := st }] } := by
  unfold log_scheduler_run
  rw [h]

/-- Unfolding `log_scheduler_run` when the job has a previous entry. -/
theorem log_scheduler_run_some (db : Db) (job st : String) (now hd : Int)
    (last : SchedulerLog) (h : lastLog db.scheduler_logs job = some last) :
    log_scheduler_run db job st now hd =
      if hd * 3600 ≤ now - last.run_datetime then
        { db with scheduler_logs := db.scheduler_logs ++
            [{ job_name := job, run_datetime := now, run_status := st }] }
      else db := by
  unfold log_scheduler_run
  rw [h]

/-- C5 (amended): when NO operation happens between the two invocations, a
second reconciliation invocation within the configured interval of a first
one that logged leaves the entire store — every user's tier, balances,
expiration, the purchase table and the scheduler log — exactly as the first
invocation left it: the balance overwrite recomputes the same values and
the log append is skipped.  (The claim's allowance for interim consumption
is dropped: the counterexample shows the second run resets it.) -/
theorem reconciliation_rerun_is_noop (c : Config) (db : Db) (today t1 t2 : Int)
    (hint : 0 < c.hour_interval)
    (hprior : ∀ e ∈ db.scheduler_logs, e.job_name = "update_user_quotas" →
      e.run_datetime ≤ t1 - c.hour_interval * 3600)
    (hlt : t2 - t1 < c.hour_interval * 3600) :
    update_user_quotas_run c (update_user_quotas_run c db today t1) today t2 =
      update_user_quotas_run c db today t1 := by
  have hrun1 : update_user_quotas_run c db today t1 =
      { users := db.users.map (reconOne c today db.purchases),
        purchases := removeAll today (db.users.map User.user_id) db.purchases,
        scheduler_logs := db.scheduler_logs ++
          [{ job_name := "update_user_quotas", run_datetime := t1,
             run_status := "success" }] } := by
    unfold update_user_quotas_run
    cases hl : lastLog db.scheduler_logs ("update_user_quotas") with
    | none =>
      rw [log_scheduler_run_none (update_user_quotas c db today) _ _ _ _ hl,
          update_user_quotas_closed c db today]
    | some last =>
      rw [log_scheduler_run_some (update_user_quotas c db today) _ _ _ _ _ hl]
      have hm := lastLog_mem _ _ _ hl
      have hb := hprior last hm.1 hm.2
      rw [if_pos (by omega), update_user_quotas_closed c db today]
  rw [hrun1]
  have hlast2 : lastLog (db.scheduler_logs ++
      [{ job_name := "update_user_quotas", run_datetime := t1,
         run_status := "success" }]) ("update_user_quotas") =
      some { job_name := "update_user_quotas", run_datetime := t1,
             run_status := "success" } := by
    refine lastLog_append _ _ _ rfl ?_
    intro x hx hj
    have := hprior x hx hj
    show x.run_datetime < t1
    omega
  unfold update_user_quotas_run
  rw [log_scheduler_run_some (update_user_quotas c
      { users := db.users.map (reconOne c today db.purchases),
        purchases := removeAll today (db.users.map User.user_id) db.purchases,
        scheduler_logs := db.scheduler_logs ++
          [{ job_name := "update_user_quotas", run_datetime := t1,
             run_status := "success" }] } today) _ _ _ _ _ hlast2]
  rw [if_neg (show ¬ c.hour_interval * 3600 ≤ t2 -
      ({ job_name := "update_user_quotas", run_datetime := t1,
         run_status := "success" } : SchedulerLog).run_datetime by
    show ¬ c.hour_interval * 3600 ≤ t2 - t1
    omega)]
  rw [update_user_quotas_closed]
  simp only []
  rw [map_reconOne_all c today db.purchases
        (removeAll today (db.users.map User.user_id) db.purchases)
        (fun uid => act_removeAll today uid (db.users.map User.user_id) db.purchases)
        db.users,
      map_user_id_reconOne, removeAll_idem]

/-- C5 (witness): the rerun no-op theorem applied to the one-user store with
an empty scheduler log, runs at t1 = 0 and t2 = 1 under a 24h interval. -/
theorem reconciliation_rerun_is_noop_witness :
    update_user_quotas_run cfgA (update_user_quotas_run cfgA dbFree1 0 0) 0 1 =
      update_user_quotas_run cfgA dbFree1 0 0 :=
  reconciliation_rerun_is_noop cfgA dbFree1 0 0 1 (by decide) (by decide)
    (by decide)

/-- Fetching one's own row after a one-user update that preserves the id
column. -/
theorem fetchUser_mapUser_self (db : Db) (uid : Nat) (f : User → User) (r : User)
    (hf : ∀ v, (f v).user_id = v.user_id) (hr : fetchUser db uid = some r) :
    fetchUser (mapUser db uid f) uid = some (f r) := by
  rw [fetchUser_mapUser db uid uid f hf, hr]
  have hid : r.user_id = uid := by simpa using fetchUser_id hr
  simp [hid]

/-- C8 (counterexample): a premium user with `awaiting_target`
(`receive_target_flag`) set but `targets_left = 0` submits a photo; the
download and the FaceSwap call both succeed, the image is fully processed,
yet the flag survives (stays 1): `target_image_check` clears it only inside
its `premium ∧ flag ∧ targets_left` branch, so the clearing is not
unconditional. -/
theorem target_flag_survives_counterexample :
    ((image_handler_logic
        { users := [({ userFree1 with
                       status := "premium", receive_target_flag := 1,
                       targets_left := 0, requests_left := 5 })],
          purchases := [], scheduler_logs := [] }
        { userFree1 with
          status := "premium", receive_target_flag := 1,
          targets_left := 0, requests_left := 5 }
        true true (["o"]) ("in")).map
      fun r => (fetchUser r.1 1).map User.receive_target_flag) = some (some 1) ∧
    ¬ ((image_handler_logic
        { users := [({ userFree1 with
                       status := "premium", receive_target_flag := 1,
                       targets_left := 0, requests_left := 5 })],
          purchases := [], scheduler_logs := [] }
        { userFree1 with
          status := "premium", receive_target_flag := 1,
          targets_left := 0, requests_left := 5 }
        true true (["o"]) ("in")).map
      fun r => (fetchUser r.1 1).map User.receive_target_flag) = some (some 0) := by
  decide

/-- C8 (amended): when a photo for the snapshot user `u` runs through
`image_handler_logic` to completion, the user's stored
`receive_target_flag` ends at 0 exactly when the download succeeded AND the
target branch fired (snapshot shows premium, flag set, nonzero target
balance); in every other disposition — download failure, non-premium,
exhausted target balance, FaceSwap failure or success — the stored flag is
left exactly as it was, so a set flag can survive a processed photo. -/
theorem target_flag_clearing (db : Db) (u r : User) (dok sok : Bool)
    (outs : List String) (path : String) (db2 : Db) (msgs : List Msg)
    (hr : fetchUser db u.user_id = some r)
    (hrun : image_handler_logic db u dok sok outs path = some (db2, msgs)) :
    ∃ r2 : User, fetchUser db2 u.user_id = some r2 ∧
      r2.receive_target_flag =
        if dok && (u.status == "premium") && !(u.receive_target_flag == 0) &&
            !(u.targets_left == 0) then 0 else r.receive_target_flag := by
  cases dok with
  | false =>
    simp only [image_handler_logic, Bool.false_eq_true, if_false] at hrun
    have h1 : db = db2 := congrArg Prod.fst (Option.some.inj hrun)
    refine ⟨r, by rw [← h1]; exact hr, ?_⟩
    exact (if_neg (by simp)).symm
  | true =>
    by_cases hc : (u.status == "premium" && !(u.receive_target_flag == 0) &&
        !(u.targets_left == 0)) = true
    · have htic : target_image_check db u path =
          (decrement_targets_left (toggle_receive_target_flag
            (update_user_mode db u.user_id path) u.user_id 0) u.user_id 1,
           [Msg.targetUploaded (u.targets_left - 1)], true) := by
        simp only [target_image_check]
        rw [if_pos hc]
      simp only [image_handler_logic, image_handler_load, htic, if_true] at hrun
      have h1 : decrement_targets_left (toggle_receive_target_flag
          (update_user_mode db u.user_id path) u.user_id 0) u.user_id 1 = db2 :=
        congrArg Prod.fst (Option.some.inj hrun)
      have e1 : fetchUser (update_user_mode db u.user_id path) u.user_id =
          some { r with mode := path } :=
        fetchUser_mapUser_self db u.user_id _ r (fun v => rfl) hr
      have e2 : fetchUser (toggle_receive_target_flag
          (update_user_mode db u.user_id path) u.user_id 0) u.user_id =
          some { r with mode := path, receive_target_flag := 0 } :=
        fetchUser_mapUser_self _ u.user_id
          (fun v => { v with receive_target_flag := 0 }) _ (fun v => rfl) e1
      have e3 : fetchUser (decrement_targets_left (toggle_receive_target_flag
          (update_user_mode db u.user_id path) u.user_id 0) u.user_id 1)
          u.user_id =
          some (if 0 < r.targets_left then
            { r with mode := path, receive_target_flag := 0,
                     targets_left := max 0 (r.targets_left - 1) }
          else { r with mode := path, receive_target_flag := 0 }) :=
        fetchUser_mapUser_self _ u.user_id
          (fun v => if 0 < v.targets_left then
            { v with targets_left := max 0 (v.targets_left - 1) }
          else v) _
          (fun v => by by_cases h : 0 < v.targets_left <;> simp [h]) e2
      rw [h1] at e3
      refine ⟨_, e3, ?_⟩
      have hcnd : (true && (u.status == "premium") &&
          !(u.receive_target_flag == 0) && !(u.targets_left == 0)) = true := by
        simp only [Bool.true_and]
        exact hc
      rw [if_pos hcnd]
      by_cases h : (0 : Int) < r.targets_left <;> simp [h]
    · have htic : target_image_check db u path = (db, [], false) := by
        simp only [target_image_check]
        rw [if_neg hc]
      have hflag : ∀ x, x = db2 → fetchUser x u.user_id = some r →
          ∃ r2 : User, fetchUser db2 u.user_id = some r2 ∧
            r2.receive_target_flag =
              if true && (u.status == "premium") && !(u.receive_target_flag == 0) &&
                  !(u.targets_left == 0) then 0 else r.receive_target_flag := by
        intro x hx hfx
        refine ⟨r, by rw [← hx]; exact hfx, ?_⟩
        rw [if_neg (by simp only [Bool.true_and]; exact fun hh => hc hh)]
      simp only [image_handler_logic, image_handler_load, htic, if_true] at hrun
      simp only [Bool.false_eq_true, if_false] at hrun
      cases sok with
      | false =>
        simp only [image_handler_swapper, Bool.false_eq_true, if_false] at hrun
        have h1 : db = db2 := congrArg Prod.fst (Option.some.inj hrun)
        exact hflag db h1 hr
      | true =>
        simp only [image_handler_swapper, if_true,
          image_handler_received_result] at hrun
        cases hsend : handler_image_send db u.user_id outs with
        | none => rw [hsend] at hrun; cases hrun
        | some res =>
          rw [hsend] at hrun
          cases hres : res.1 with
          | false =>
            have hres2 : res = (false, res.2) := by
              rw [← hres]
            rw [hres2] at hrun
            simp only [] at hrun
            have h1 : db = db2 := congrArg Prod.fst (Option.some.inj hrun)
            exact hflag db h1 hr
          | true =>
            have hres2 : res = (true, res.2) := by
              rw [← hres]
            rw [hres2] at hrun
            simp only [] at hrun
            have h1 : (decrement_requests_left db u.user_id
                (outs.length : Int)).1 = db2 :=
              congrArg Prod.fst (Option.some.inj hrun)
            have e1 : fetchUser (decrement_requests_left db u.user_id
                (outs.length : Int)).1 u.user_id =
                some (if 0 < r.requests_left then
                  { r with requests_left := max 0 (r.requests_left -
                      (outs.length : Int)) }
                else { r with requests_left := 0 }) :=
              fetchUser_mapUser_self db u.user_id
                (fun v => if 0 < v.requests_left then
                  { v with requests_left := max 0 (v.requests_left -
                      (outs.length : Int)) }
                else { v with requests_left := 0 }) r
                (fun v => by by_cases h : 0 < v.requests_left <;> simp [h]) hr
            rw [h1] at e1
            refine ⟨_, e1, ?_⟩
            have hcnd : ¬ ((true && (u.status == "premium") &&
                !(u.receive_target_flag == 0) && !(u.targets_left == 0)) = true) := by
              simp only [Bool.true_and]
              exact hc
            rw [if_neg hcnd]
            by_cases h : 0 < r.requests_left <;> simp [h]

/-- C8 (witness): the flag-clearing theorem applied to a premium user with
the flag set and one target credit, whose photo settles as a custom
target. -/
theorem target_flag_clearing_witness :
    ∃ r2 : User, fetchUser dbPrem1After 1 = some r2 ∧
      r2.receive_target_flag =
        if true && (userPrem1.status == "premium") &&
            !(userPrem1.receive_target_flag == 0) &&
            !(userPrem1.targets_left == 0) then 0
        else userPrem1.receive_target_flag :=
  target_flag_clearing dbPrem1 userPrem1 userPrem1 true true (["o"]) ("in")
    dbPrem1After [Msg.imgReceived, Msg.targetUploaded 0] (by decide) (by decide)

end Adjuface
